import Mathlib

/-!
Verification of the `PostgresAgent` class from `src/packages/agents/postgres/index.ts`
(DB-GPT repository): plan validation, plan→SQL compilation, schema introspection,
case-insensitive table-name resolution, and the connection lifecycle state machine.

The JavaScript code is shallowly embedded: JS objects whose keys matter in order are
modelled as association lists (`List (String × α)`) with JS-assignment semantics
(overwrite-in-place, append-new-at-end); JS `undefined` for a possibly-missing field
is modelled with `Option`; the template-literal stringification of `undefined` is the
literal text `"undefined"`; a JS `TypeError` thrown by a property access on
`undefined` is an explicit error value.
-/

namespace PG

/-- A value that can appear in a plan's `values` mapping and be bound as a SQL
parameter. Parameters are passed through to the driver opaquely. -/
inductive Value where
  | vNull : Value
  | vBool (b : Bool) : Value
  | vInt (n : Int) : Value
  | vStr (s : String) : Value
deriving DecidableEq, Repr

/-- JS `String.prototype.toLowerCase`, modelled character-wise. -/
def jsToLower (s : String) : String :=
  String.mk (s.data.map Char.toLower)

/-- First-match lookup in an association list (JS property read: keys built by
`objSet` are unique, so first match is the property value). -/
def slookup (k : String) : List (String × α) → Option α
  | [] => none
  | (k2, v) :: rest => if k = k2 then some v else slookup k rest

/-- JS object property assignment `m[k] = v`: overwrite in place if the key
exists, otherwise append at the end (JS objects preserve insertion order). -/
def objSet (m : List (String × α)) (k : String) (v : α) : List (String × α) :=
  match m with
  | [] => [(k, v)]
  | (k2, v2) :: rest => if k2 = k then (k, v) :: rest else (k2, v2) :: objSet rest k v

/-- The table-name map built by `introspect`:
`this.tableNameMap[table.toLowerCase()] = table` for each table row. -/
def buildTableNameMap (tables : List String) : List (String × String) :=
  tables.foldl (fun acc t => objSet acc (jsToLower t) t) []

/-- `getActualTableName`: `this.tableNameMap[requested.toLowerCase()] || requested`.
The `||` falls through to `requested` both when the key is absent (`undefined`)
and when the stored value is the empty string (falsy). -/
def getActualTableName (m : List (String × String)) (requested : String) : String :=
  match slookup (jsToLower requested) m with
  | some v => if v = "" then requested else v
  | none => requested

/-- A query plan as received from the external plan generator. Fields that the
JS code may find `undefined` are `Option`s; `values` is the ordered key/value
list of the JS `values` object (JS `Object.keys`/`Object.values` order). -/
structure Plan where
  operation : Option String
  table : Option String
  fields : Option (List String)
  whereClause : Option String
  values : Option (List (String × Value))
deriving DecidableEq, Repr

/-- JS truthiness of a possibly-missing string field: `undefined` and `""` are falsy. -/
def truthyStr : Option String → Bool
  | none => false
  | some s => s ≠ ""

/-- `validate(plan)`: `if (!plan.operation || !plan.table) return false; return true;` -/
def validate (p : Plan) : Bool :=
  truthyStr p.operation && truthyStr p.table

/-- Errors `execute` can throw before any query is submitted:
`typeError` models the JS `TypeError` raised by a property access on `undefined`
(e.g. `plan.table.toLowerCase()` or `Object.keys(plan.values)` when the field is
missing); `unsupportedOperation` models `throw new Error("Unsupported operation")`. -/
inductive ExecError where
  | typeError : ExecError
  | unsupportedOperation : ExecError
deriving DecidableEq, Repr

/-- The single query `execute` submits to the driver: the literal SQL text and
the positionally bound parameters (`[]` when `client.query` is called with one
argument). -/
structure QueryCall where
  sql : String
  params : List Value
deriving DecidableEq, Repr

/-- Template-literal interpolation of a possibly-`undefined` string:
`${undefined}` stringifies to the literal text `undefined`. -/
def interpOptStr : Option String → String
  | none => "undefined"
  | some s => s

/-- `plan.where || "TRUE"`: `undefined` and `""` are falsy. -/
def whereOrTrue : Option String → String
  | none => "TRUE"
  | some s => if s = "" then "TRUE" else s

/-- `Array.isArray(plan.fields) && plan.fields.length > 0 ? plan.fields.join(", ") : "*"` -/
def fieldsOrStar : Option (List String) → String
  | none => "*"
  | some fs => if fs.isEmpty then "*" else String.intercalate ", " fs

/-- The `$1, ..., $n` placeholder list: `fields.map((_, i) => "$" + (i + 1))`. -/
def placeholders (n : Nat) : List String :=
  (List.range n).map (fun i => "$" ++ toString (i + 1))

/-- The `k1 = $1, ..., kn = $n` pairs of the update branch:
`Object.keys(plan.values).map((k, i) => k + " = $" + (i + 1))`. -/
def setPairs (vs : List (String × Value)) : List String :=
  vs.enum.map (fun p => p.2.1 ++ " = $" ++ toString (p.1 + 1))

/-- `execute(plan)` as a pure compilation function: the result is the single
query submitted to the driver (SQL text and bound parameters), or the error
thrown before any query is submitted. Mirrors the source switch:
table-name resolution happens first (throwing a `TypeError` when `plan.table`
is `undefined`), then the four-way dispatch on `plan.operation` with a default
branch throwing `Unsupported operation`. -/
def execute (m : List (String × String)) (p : Plan) : Except ExecError QueryCall :=
  match p.table with
  | none => Except.error ExecError.typeError
  | some t =>
    let quotedTableName := "\"" ++ getActualTableName m t ++ "\""
    if p.operation = some "select" then
      Except.ok ⟨"SELECT " ++ fieldsOrStar p.fields ++ " FROM " ++ quotedTableName
        ++ " WHERE " ++ whereOrTrue p.whereClause, []⟩
    else if p.operation = some "insert" then
      match p.values with
      | none => Except.error ExecError.typeError
      | some vs =>
        Except.ok ⟨"INSERT INTO " ++ quotedTableName
          ++ " (" ++ String.intercalate ", " (vs.map Prod.fst) ++ ")"
          ++ " VALUES (" ++ String.intercalate ", " (placeholders vs.length) ++ ")"
          ++ " RETURNING *", vs.map Prod.snd⟩
    else if p.operation = some "update" then
      match p.values with
      | none => Except.error ExecError.typeError
      | some vs =>
        Except.ok ⟨"UPDATE " ++ quotedTableName
          ++ " SET " ++ String.intercalate ", " (setPairs vs)
          ++ " WHERE " ++ interpOptStr p.whereClause ++ " RETURNING *", vs.map Prod.snd⟩
    else if p.operation = some "delete" then
      Except.ok ⟨"DELETE FROM " ++ quotedTableName
        ++ " WHERE " ++ interpOptStr p.whereClause ++ " RETURNING *", []⟩
    else
      Except.error ExecError.unsupportedOperation

/-- A row of `information_schema.tables` as the introspection query sees it. -/
structure CatalogTable where
  schemaName : String
  tableName : String
deriving DecidableEq, Repr

/-- A row of `information_schema.columns`. -/
structure CatalogColumn where
  tableSchema : String
  tableName : String
  columnName : String
  dataType : String
deriving DecidableEq, Repr

/-- The database catalog visible to `introspect` through `information_schema`. -/
structure Catalog where
  tables : List CatalogTable
  columns : List CatalogColumn
deriving DecidableEq, Repr

/-- The first introspection query:
`SELECT table_name FROM information_schema.tables WHERE table_schema = 'public'`. -/
def publicTables (c : Catalog) : List String :=
  (c.tables.filter (fun t => decide (t.schemaName = "public"))).map CatalogTable.tableName

/-- The per-table column query:
`SELECT column_name, data_type FROM information_schema.columns WHERE table_name = $1`.
Note the filter is on the table name only — there is no `table_schema` condition. -/
def columnsFor (c : Catalog) (t : String) : List CatalogColumn :=
  c.columns.filter (fun col => decide (col.tableName = t))

/-- The `fields` object of one schema entry:
`columnsRes.rows.reduce((acc, col) => { acc[col.column_name] = { type: col.data_type }; return acc; }, {})`. -/
def fieldsOf (cols : List CatalogColumn) : List (String × String) :=
  cols.foldl (fun acc col => objSet acc col.columnName col.dataType) []

/-- `introspect()` as a pure function of the catalog: for each table of the
public schema, `schema[table] = { fields: ... }` with the fields built from
every catalog column whose table name matches. -/
def introspect (c : Catalog) : List (String × List (String × String)) :=
  (publicTables c).foldl (fun acc t => objSet acc t (fieldsOf (columnsFor c t))) []

/-- The driver-level call trace entries of the connection lifecycle. -/
inductive ConnEvent where
  | connectCall : ConnEvent
  | endCall : ConnEvent
deriving DecidableEq, Repr

/-- `connectIfNeeded()`: acts on the `connected` flag and returns the driver
calls it makes (`client.connect()` only when the flag was false). -/
def connectIfNeeded (connected : Bool) : Bool × List ConnEvent :=
  if connected then (connected, []) else (true, [ConnEvent.connectCall])

/-- `close()`: calls `client.end()` and clears the flag only when connected. -/
def close (connected : Bool) : Bool × List ConnEvent :=
  if connected then (false, [ConnEvent.endCall]) else (connected, [])

theorem jsToLower_eq_empty {s : String} (h : jsToLower s = "") : s = "" := by
  cases s with
  | mk data =>
    have h2 : data.map Char.toLower = [] := congrArg String.data h
    have h3 : data = [] := List.map_eq_nil_iff.mp h2
    rw [h3]

theorem slookup_objSet_self (m : List (String × α)) (k : String) (v : α) :
    slookup k (objSet m k v) = some v := by
  induction m with
  | nil => simp [objSet, slookup]
  | cons hd tl ih =>
    obtain ⟨a, b⟩ := hd
    simp only [objSet]
    split
    · rename_i heq
      simp [slookup]
    · rename_i hne
      have : ¬ k = a := fun h => hne h.symm
      simp [slookup, this, ih]

theorem slookup_objSet_ne (m : List (String × α)) (k k2 : String) (v : α)
    (hne : k2 ≠ k) :
    slookup k2 (objSet m k v) = slookup k2 m := by
  induction m with
  | nil => simp [objSet, slookup, hne]
  | cons hd tl ih =>
    obtain ⟨a, b⟩ := hd
    simp only [objSet]
    split
    · rename_i heq
      subst heq
      simp [slookup, hne]
    · simp [slookup, ih]

theorem slookup_objSet (m : List (String × α)) (k k2 : String) (v : α) :
    slookup k2 (objSet m k v) = if k2 = k then some v else slookup k2 m := by
  by_cases h : k2 = k
  · subst h; simp [slookup_objSet_self]
  · simp [h, slookup_objSet_ne m k k2 v h]

theorem mem_objSet {m : List (String × α)} {k : String} {v : α} {p : String × α}
    (h : p ∈ objSet m k v) : p = (k, v) ∨ p ∈ m := by
  induction m with
  | nil =>
    simp only [objSet, List.mem_singleton] at h
    exact Or.inl h
  | cons hd tl ih =>
    obtain ⟨a, b⟩ := hd
    simp only [objSet] at h
    split at h
    · rcases List.mem_cons.mp h with h1 | h1
      · exact Or.inl h1
      · exact Or.inr (List.mem_cons.mpr (Or.inr h1))
    · rcases List.mem_cons.mp h with h1 | h1
      · exact Or.inr (List.mem_cons.mpr (Or.inl h1))
      · rcases ih h1 with h2 | h2
        · exact Or.inl h2
        · exact Or.inr (List.mem_cons.mpr (Or.inr h2))

theorem slookup_mem {m : List (String × α)} {k : String} {v : α}
    (h : slookup k m = some v) : (k, v) ∈ m := by
  induction m with
  | nil => simp [slookup] at h
  | cons hd tl ih =>
    obtain ⟨a, b⟩ := hd
    simp only [slookup] at h
    split at h
    · rename_i heq
      obtain rfl : b = v := Option.some.inj h
      subst heq
      exact List.mem_cons_self _ _
    · exact List.mem_cons.mpr (Or.inr (ih h))

theorem buildTableNameMap_wf (ts : List String) :
    ∀ p ∈ buildTableNameMap ts, p.1 = jsToLower p.2 := by
  have gen : ∀ (acc : List (String × String)),
      (∀ p ∈ acc, p.1 = jsToLower p.2) →
      ∀ p ∈ ts.foldl (fun a t => objSet a (jsToLower t) t) acc, p.1 = jsToLower p.2 := by
    induction ts with
    | nil => intro acc hacc; simpa using hacc
    | cons x xs ih =>
      intro acc hacc
      simp only [List.foldl_cons]
      apply ih
      intro p hp
      rcases mem_objSet hp with h | h
      · rw [h]
      · exact hacc p h
  exact gen [] (by simp)

theorem foldl_objSet_lookup (f : String → α) (ts : List String) (acc : List (String × α))
    (t : String) :
    slookup t (ts.foldl (fun a x => objSet a x (f x)) acc)
      = if t ∈ ts then some (f t) else slookup t acc := by
  induction ts generalizing acc with
  | nil => simp
  | cons x xs ih =>
    simp only [List.foldl_cons, ih, slookup_objSet]
    by_cases hx : t ∈ xs
    · simp [hx]
    · by_cases htx : t = x
      · simp [hx, htx]
      · simp [hx, htx]

theorem getActualTableName_built (ts : List String) (t : String) :
    (∀ v, slookup (jsToLower t) (buildTableNameMap ts) = some v →
        getActualTableName (buildTableNameMap ts) t = v)
    ∧ (slookup (jsToLower t) (buildTableNameMap ts) = none →
        getActualTableName (buildTableNameMap ts) t = t) := by
  constructor
  · intro v hv
    have hpair : (jsToLower t, v) ∈ buildTableNameMap ts := slookup_mem hv
    have hwf : jsToLower t = jsToLower v := buildTableNameMap_wf ts _ hpair
    by_cases hve : v = ""
    · subst hve
      have hle : jsToLower t = "" := by rw [hwf]; rfl
      have ht : t = "" := jsToLower_eq_empty hle
      subst ht
      simp [getActualTableName, hv]
    · simp [getActualTableName, hv, hve]
  · intro h
    simp [getActualTableName, h]

/-- C1: for every plan with a supported operation (any plan on which `execute`
submits a query), the table identifier in the compiled SQL is the resolved name
wrapped in double quotes, where resolution through a table-name map built by
introspection returns the stored-case name whenever the lowercased requested
name has an entry, and passes the requested name through unchanged when it has
no entry. -/
theorem C1_table_resolution (tables : List String) (p : Plan) (t : String) (q : QueryCall)
    (ht : p.table = some t)
    (hok : execute (buildTableNameMap tables) p = Except.ok q) :
    (∃ pre post,
        q.sql = pre ++ "\"" ++ getActualTableName (buildTableNameMap tables) t ++ "\"" ++ post)
    ∧ (∀ v, slookup (jsToLower t) (buildTableNameMap tables) = some v →
        getActualTableName (buildTableNameMap tables) t = v)
    ∧ (slookup (jsToLower t) (buildTableNameMap tables) = none →
        getActualTableName (buildTableNameMap tables) t = t) := by
  refine ⟨?_, (getActualTableName_built tables t).1, (getActualTableName_built tables t).2⟩
  simp only [execute, ht] at hok
  by_cases h1 : p.operation = some "select"
  · rw [if_pos h1] at hok
    injection hok with h
    subst h
    refine ⟨"SELECT " ++ fieldsOrStar p.fields ++ " FROM ",
      " WHERE " ++ whereOrTrue p.whereClause, ?_⟩
    simp only [← String.append_assoc]
  · rw [if_neg h1] at hok
    by_cases h2 : p.operation = some "insert"
    · rw [if_pos h2] at hok
      cases hv : p.values with
      | none => rw [hv] at hok; exact absurd hok (by simp)
      | some vs =>
        rw [hv] at hok
        injection hok with h
        subst h
        refine ⟨"INSERT INTO ",
          " (" ++ String.intercalate ", " (vs.map Prod.fst) ++ ")"
            ++ " VALUES (" ++ String.intercalate ", " (placeholders vs.length) ++ ")"
            ++ " RETURNING *", ?_⟩
        simp only [← String.append_assoc]
    · rw [if_neg h2] at hok
      by_cases h3 : p.operation = some "update"
      · rw [if_pos h3] at hok
        cases hv : p.values with
        | none => rw [hv] at hok; exact absurd hok (by simp)
        | some vs =>
          rw [hv] at hok
          injection hok with h
          subst h
          refine ⟨"UPDATE ",
            " SET " ++ String.intercalate ", " (setPairs vs)
              ++ " WHERE " ++ interpOptStr p.whereClause ++ " RETURNING *", ?_⟩
          simp only [← String.append_assoc]
      · rw [if_neg h3] at hok
        by_cases h4 : p.operation = some "delete"
        · rw [if_pos h4] at hok
          injection hok with h
          subst h
          refine ⟨"DELETE FROM ",
            " WHERE " ++ interpOptStr p.whereClause ++ " RETURNING *", ?_⟩
          simp only [← String.append_assoc]
        · rw [if_neg h4] at hok
          exact absurd hok (by simp)

/-- Witness for C1: a select against the requested name `users` when the stored
table name is `Users` compiles to `SELECT * FROM "Users" WHERE TRUE`. -/
theorem C1_witness :
    (∃ pre post, ("SELECT * FROM \"Users\" WHERE TRUE" : String)
        = pre ++ "\"" ++ getActualTableName (buildTableNameMap ["Users"]) "users" ++ "\"" ++ post)
    ∧ (∀ v, slookup (jsToLower "users") (buildTableNameMap ["Users"]) = some v →
        getActualTableName (buildTableNameMap ["Users"]) "users" = v)
    ∧ (slookup (jsToLower "users") (buildTableNameMap ["Users"]) = none →
        getActualTableName (buildTableNameMap ["Users"]) "users" = "users") :=
  C1_table_resolution ["Users"] ⟨some "select", some "users", none, none, none⟩ "users"
    ⟨"SELECT * FROM \"Users\" WHERE TRUE", []⟩ rfl (by rfl)

/-- C2: every select plan whose fields are absent or the empty list and whose
where is absent compiles to exactly `SELECT * FROM "<table>" WHERE TRUE` with
the resolved table name, and runs with no bound parameters. -/
theorem C2_select_default (m : List (String × String)) (p : Plan) (t : String)
    (hop : p.operation = some "select") (ht : p.table = some t)
    (hf : p.fields = none ∨ p.fields = some [])
    (hw : p.whereClause = none) :
    execute m p = Except.ok
      ⟨"SELECT * FROM \"" ++ getActualTableName m t ++ "\" WHERE TRUE", []⟩ := by
  have hfs : fieldsOrStar p.fields = "*" := by
    rcases hf with h | h <;> simp [fieldsOrStar, h]
  have hws : whereOrTrue p.whereClause = "TRUE" := by simp [whereOrTrue, hw]
  simp only [execute, ht, if_pos hop, hfs, hws]
  congr 1
  simp only [QueryCall.mk.injEq, and_true]
  simp only [← String.append_assoc]
  simp [String.append_assoc]

/-- Witness for C2: a bare select on table `t` compiles to
`SELECT * FROM "Users" WHERE TRUE` when the stored name is `Users`. -/
theorem C2_witness :
    execute (buildTableNameMap ["Users"])
      ⟨some "select", some "users", none, none, none⟩
      = Except.ok ⟨"SELECT * FROM \"Users\" WHERE TRUE", []⟩ := by
  have h := C2_select_default (buildTableNameMap ["Users"])
      ⟨some "select", some "users", none, none, none⟩ "users" rfl rfl (Or.inl rfl) rfl
  rw [h]
  rfl

/-- C3: every insert plan with a values mapping compiles to
`INSERT INTO "<table>" (k1, ..., kn) VALUES ($1, ..., $n) RETURNING *` with the
keys in enumeration order and the corresponding values bound positionally in
that same order. -/
theorem C3_insert_compiles (m : List (String × String)) (p : Plan) (t : String)
    (vs : List (String × Value))
    (hop : p.operation = some "insert") (ht : p.table = some t)
    (hv : p.values = some vs) :
    execute m p = Except.ok
      ⟨"INSERT INTO \"" ++ getActualTableName m t ++ "\" ("
          ++ String.intercalate ", " (vs.map Prod.fst)
          ++ ") VALUES (" ++ String.intercalate ", " (placeholders vs.length)
          ++ ") RETURNING *",
        vs.map Prod.snd⟩ := by
  have hnsel : ¬ p.operation = some "select" := by rw [hop]; simp
  simp only [execute, ht, if_neg hnsel, if_pos hop, hv]
  congr 1
  simp only [QueryCall.mk.injEq, and_true]
  simp only [← String.append_assoc]
  simp [String.append_assoc]

/-- Witness for C3: inserting `a = 1, b = "x"` into table `t` compiles to
`INSERT INTO "t" (a, b) VALUES ($1, $2) RETURNING *` with parameters `[1, "x"]`. -/
theorem C3_witness :
    execute [] ⟨some "insert", some "t", none, none,
        some [("a", Value.vInt 1), ("b", Value.vStr "x")]⟩
      = Except.ok ⟨"INSERT INTO \"t\" (a, b) VALUES ($1, $2) RETURNING *",
          [Value.vInt 1, Value.vStr "x"]⟩ := by
  have h := C3_insert_compiles [] ⟨some "insert", some "t", none, none,
      some [("a", Value.vInt 1), ("b", Value.vStr "x")]⟩ "t"
      [("a", Value.vInt 1), ("b", Value.vStr "x")] rfl rfl rfl
  rw [h]
  rfl

/-- C4: every update plan with a values mapping and a where string compiles to
`UPDATE "<table>" SET k1 = $1, ..., kn = $n WHERE <where> RETURNING *` with one
pair per key in enumeration order, the where text interpolated literally, and
the values bound positionally. -/
theorem C4_update_compiles (m : List (String × String)) (p : Plan) (t w : String)
    (vs : List (String × Value))
    (hop : p.operation = some "update") (ht : p.table = some t)
    (hv : p.values = some vs) (hw : p.whereClause = some w) :
    execute m p = Except.ok
      ⟨"UPDATE \"" ++ getActualTableName m t ++ "\" SET "
          ++ String.intercalate ", " (setPairs vs)
          ++ " WHERE " ++ w ++ " RETURNING *",
        vs.map Prod.snd⟩ := by
  have h1 : ¬ p.operation = some "select" := by rw [hop]; simp
  have h2 : ¬ p.operation = some "insert" := by rw [hop]; simp
  simp only [execute, ht, if_neg h1, if_neg h2, if_pos hop, hv, interpOptStr, hw]
  congr 1
  simp only [QueryCall.mk.injEq, and_true]
  simp only [← String.append_assoc]
  simp [String.append_assoc]

/-- Witness for C4: updating `a = 5` where `id = 1` compiles to
`UPDATE "t" SET a = $1 WHERE id = 1 RETURNING *` with parameter `[5]`. -/
theorem C4_witness :
    execute [] ⟨some "update", some "t", none, some "id = 1", some [("a", Value.vInt 5)]⟩
      = Except.ok ⟨"UPDATE \"t\" SET a = $1 WHERE id = 1 RETURNING *", [Value.vInt 5]⟩ := by
  have h := C4_update_compiles [] ⟨some "update", some "t", none, some "id = 1",
      some [("a", Value.vInt 5)]⟩ "t" "id = 1" [("a", Value.vInt 5)] rfl rfl rfl rfl
  rw [h]
  rfl

/-- C5: every delete plan with a where string compiles to exactly
`DELETE FROM "<table>" WHERE <where> RETURNING *` with the where text
interpolated literally, and runs with no bound parameters. -/
theorem C5_delete_compiles (m : List (String × String)) (p : Plan) (t w : String)
    (hop : p.operation = some "delete") (ht : p.table = some t)
    (hw : p.whereClause = some w) :
    execute m p = Except.ok
      ⟨"DELETE FROM \"" ++ getActualTableName m t ++ "\" WHERE " ++ w ++ " RETURNING *",
        []⟩ := by
  have h1 : ¬ p.operation = some "select" := by rw [hop]; simp
  have h2 : ¬ p.operation = some "insert" := by rw [hop]; simp
  have h3 : ¬ p.operation = some "update" := by rw [hop]; simp
  simp only [execute, ht, if_neg h1, if_neg h2, if_neg h3, if_pos hop, interpOptStr, hw]
  congr 1
  simp only [QueryCall.mk.injEq, and_true]
  simp only [← String.append_assoc]
  simp [String.append_assoc]

/-- Witness for C5: deleting where `id = 1` compiles to
`DELETE FROM "t" WHERE id = 1 RETURNING *` with no parameters. -/
theorem C5_witness :
    execute [] ⟨some "delete", some "t", none, some "id = 1", none⟩
      = Except.ok ⟨"DELETE FROM \"t\" WHERE id = 1 RETURNING *", []⟩ := by
  have h := C5_delete_compiles [] ⟨some "delete", some "t", none, some "id = 1", none⟩
      "t" "id = 1" rfl rfl rfl
  rw [h]
  rfl

/-- C6 counterexample: a plan whose operation tag is the unsupported `drop` but
whose table field is absent makes `execute` throw the TypeError of
`plan.table.toLowerCase()` before the operation dispatch, not the
unsupported-operation error the claim states. -/
theorem C6_counterexample :
    execute [] ⟨some "drop", none, none, none, none⟩ = Except.error ExecError.typeError
    ∧ ExecError.typeError ≠ ExecError.unsupportedOperation :=
  ⟨rfl, by decide⟩

/-- C6 amended: every plan whose operation tag is not one of select, insert,
update, delete makes `execute` raise the unsupported-operation error when the
table field is present, and the TypeError of the table-name resolution when it
is absent; in both cases no SQL query is submitted (an error result is the
absence of any query call in this model). -/
theorem C6_unsupported_amended (m : List (String × String)) (p : Plan)
    (hop : p.operation ≠ some "select" ∧ p.operation ≠ some "insert"
        ∧ p.operation ≠ some "update" ∧ p.operation ≠ some "delete") :
    (∀ t, p.table = some t → execute m p = Except.error ExecError.unsupportedOperation)
    ∧ (p.table = none → execute m p = Except.error ExecError.typeError) := by
  obtain ⟨h1, h2, h3, h4⟩ := hop
  constructor
  · intro t ht
    simp [execute, ht, h1, h2, h3, h4]
  · intro ht
    simp [execute, ht]

/-- Witness for the amended C6: operation `drop` on table `t` raises the
unsupported-operation error. -/
theorem C6_witness :
    execute [] ⟨some "drop", some "t", none, none, none⟩
      = Except.error ExecError.unsupportedOperation :=
  (C6_unsupported_amended [] ⟨some "drop", some "t", none, none, none⟩
    ⟨by decide, by decide, by decide, by decide⟩).1 "t" rfl

/-- C7: `validate` returns true exactly when both the operation field and the
table field are present and non-empty, regardless of every other field of the
plan; in particular the operation need not be one of the four supported kinds
and values or where may be missing. -/
theorem C7_validate_iff (p : Plan) :
    validate p = true
      ↔ ((∃ s, p.operation = some s ∧ s ≠ "") ∧ (∃ s, p.table = some s ∧ s ≠ "")) := by
  cases hop : p.operation <;> cases ht : p.table <;>
    simp [validate, truthyStr, hop, ht]

/-- C8 counterexample: with a `users` table in the public schema and a
same-named table in another schema, the fields of the introspected `users`
entry include the column `secret` of the other schema, although no
public-schema column is named `secret` — the column query filters by table
name only. -/
theorem C8_counterexample :
    slookup "users" (introspect ⟨[⟨"public", "users"⟩, ⟨"other", "users"⟩],
        [⟨"public", "users", "id", "integer"⟩, ⟨"other", "users", "secret", "text"⟩]⟩)
      = some [("id", "integer"), ("secret", "text")]
    ∧ ∀ col ∈ (⟨[⟨"public", "users"⟩, ⟨"other", "users"⟩],
        [⟨"public", "users", "id", "integer"⟩,
          ⟨"other", "users", "secret", "text"⟩]⟩ : Catalog).columns,
        col.tableSchema = "public" → col.columnName ≠ "secret" :=
  ⟨rfl, by decide⟩

/-- C8 amended: `introspect` returns a mapping whose keys are exactly the table
names visible in the public schema, and the fields of each such table are built
from every catalog column whose table name matches — including columns of
same-named tables in other schemas. -/
theorem C8_introspect_amended (c : Catalog) (t : String) :
    slookup t (introspect c)
      = if t ∈ publicTables c then some (fieldsOf (columnsFor c t)) else none := by
  have h := foldl_objSet_lookup (fun x => fieldsOf (columnsFor c x)) (publicTables c) [] t
  simpa [introspect, slookup] using h

/-- C9: the connection handle is a two-state machine: `connectIfNeeded`
connects only when the flag is false, is a no-op when already connected
(repeated calls before a close are idempotent), and `close` resets the flag so
that a subsequent operation re-establishes the connection. -/
theorem C9_connection_machine :
    (connectIfNeeded false = (true, [ConnEvent.connectCall]))
    ∧ (connectIfNeeded true = (true, []))
    ∧ (∀ s, connectIfNeeded (connectIfNeeded s).1 = ((connectIfNeeded s).1, []))
    ∧ (close true = (false, [ConnEvent.endCall]))
    ∧ (close false = (false, []))
    ∧ (connectIfNeeded (close true).1 = (true, [ConnEvent.connectCall])) := by
  refine ⟨rfl, rfl, ?_, rfl, rfl, rfl⟩
  intro s; cases s <;> rfl

/-- C10: every update or delete plan whose where field is absent (for update,
with a values mapping present) is compiled and submitted without an error: the
template literal stringifies the missing predicate to the literal text
`undefined`, so the statement ends in `WHERE undefined RETURNING *`. -/
theorem C10_where_undefined (m : List (String × String)) (p : Plan) (t : String)
    (hop : p.operation = some "update" ∨ p.operation = some "delete")
    (ht : p.table = some t) (hw : p.whereClause = none)
    (hvals : p.operation = some "update" → ∃ vs, p.values = some vs) :
    ∃ q, execute m p = Except.ok q ∧
      ∃ pre, q.sql = pre ++ " WHERE undefined RETURNING *" := by
  rcases hop with hop | hop
  · obtain ⟨vs, hv⟩ := hvals hop
    have h1 : ¬ p.operation = some "select" := by rw [hop]; simp
    have h2 : ¬ p.operation = some "insert" := by rw [hop]; simp
    refine ⟨⟨"UPDATE \"" ++ getActualTableName m t ++ "\" SET "
        ++ String.intercalate ", " (setPairs vs) ++ " WHERE undefined RETURNING *",
        vs.map Prod.snd⟩, ?_, ?_⟩
    · simp only [execute, ht, if_neg h1, if_neg h2, if_pos hop, hv, hw, interpOptStr]
      congr 1
      simp only [QueryCall.mk.injEq, and_true]
      simp only [← String.append_assoc]
      simp [String.append_assoc]
    · exact ⟨"UPDATE \"" ++ getActualTableName m t ++ "\" SET "
        ++ String.intercalate ", " (setPairs vs), rfl⟩
  · have h1 : ¬ p.operation = some "select" := by rw [hop]; simp
    have h2 : ¬ p.operation = some "insert" := by rw [hop]; simp
    have h3 : ¬ p.operation = some "update" := by rw [hop]; simp
    refine ⟨⟨"DELETE FROM \"" ++ getActualTableName m t
        ++ "\" WHERE undefined RETURNING *", []⟩, ?_, ?_⟩
    · simp only [execute, ht, if_neg h1, if_neg h2, if_neg h3, if_pos hop, hw, interpOptStr]
      congr 1
      simp only [QueryCall.mk.injEq, and_true]
      simp only [← String.append_assoc]
      simp [String.append_assoc]
    · exact ⟨"DELETE FROM \"" ++ getActualTableName m t ++ "\"",
        by simp [String.append_assoc]⟩

/-- Witness for C10: updating `a = 5` with no where clause compiles and is
submitted with a `WHERE undefined` predicate. -/
theorem C10_witness :
    ∃ q, execute [] ⟨some "update", some "t", none, none, some [("a", Value.vInt 5)]⟩
        = Except.ok q ∧
      ∃ pre, q.sql = pre ++ " WHERE undefined RETURNING *" :=
  C10_where_undefined [] ⟨some "update", some "t", none, none, some [("a", Value.vInt 5)]⟩
    "t" (Or.inl rfl) rfl rfl (fun _ => ⟨[("a", Value.vInt 5)], rfl⟩)

end PG
